import Mathlib

/-!
# Verification of the schema-adaptive metric resolution layer of `dashboard.py`

This file shallowly embeds the core logic of the US education dashboard
(`src/dashboard.py`): the state-identifier normalizer `to_state_code`, the
metric expression registry (Curated and Raw variants), the source resolver
`pick_source`, the national baseline resolver (`nat_expr` and the two
provenances of `national_q`), the trend reconciler and delta computation,
and the record-dropping / KPI logic.

Conventions of the embedding:
* Python strings are modelled over their character lists; the Python string
  methods used by the source (`strip`, `isalpha`, `upper`, `lower`,
  `replace("_", " ")`, `split`, `join`, `title`) are modelled on the ASCII
  fragment, matching CPython semantics for ASCII text (`Char.toUpper`,
  `Char.toLower`, `Char.isAlpha` in Lean core are exactly the ASCII maps).
* SQL values are rationals; nullable cells are `Option ℚ`.  SQL expressions
  appearing in the source's interpolated query strings are embedded as a
  small expression AST with a Presto-style evaluator in which division by
  zero is a query error (`Except.error`) and `NULLIF` compares non-null
  values.
* Tabular query results are lists of rows; `GROUP BY`/`AVG`/`ORDER BY` are
  modelled by grouping, null-skipping average, and sorting.
* pandas behavior relevant to the claims is modelled explicitly: `dropna`
  is a filter, skipna statistics ignore `none` cells, `astype(int)` on a
  column containing a null raises (modelled as an `Option`-valued outcome),
  and `.iloc[0]` of an empty selection raises.
-/

namespace Dashboard

/-- ASCII whitespace stripped by Python `str.strip()` and split on by
`str.split()`: space, tab, newline, carriage return, vertical tab, form feed. -/
def pySpace (c : Char) : Bool :=
  c = ' ' || c = '\t' || c = '\n' || c = '\r' || c = '\x0b' || c = '\x0c'

/-- Python `s.strip()`: remove leading and trailing whitespace. -/
def pyStrip (l : List Char) : List Char :=
  ((l.dropWhile pySpace).reverse.dropWhile pySpace).reverse

/-- Python `s.upper()` (ASCII): uppercase every character. -/
def pyUpper (l : List Char) : List Char := l.map Char.toUpper

/-- Python `s.lower()` (ASCII): lowercase every character. -/
def pyLower (l : List Char) : List Char := l.map Char.toLower

/-- Python `s.replace("_", " ")`: replace every underscore by a space. -/
def underscoresToSpaces (l : List Char) : List Char :=
  l.map (fun c => if c = '_' then ' ' else c)

/-- Helper for Python `s.split()`: accumulate the current word (reversed in
`acc`) and cut at whitespace runs. -/
def pyWordsAux : List Char → List Char → List (List Char)
  | [], acc => if acc.isEmpty then [] else [acc.reverse]
  | c :: cs, acc =>
    if pySpace c then
      if acc.isEmpty then pyWordsAux cs [] else acc.reverse :: pyWordsAux cs []
    else pyWordsAux cs (c :: acc)

/-- Python `s.split()` with no separator: words of `s`, splitting on runs of
whitespace and discarding leading/trailing whitespace. -/
def pyWords (l : List Char) : List (List Char) := pyWordsAux l []

/-- Python `" ".join(ws)` over words: empty for no words, the word itself
for one word, and words separated by single spaces otherwise. -/
def joinWords : List (List Char) → List Char
  | [] => []
  | [w] => w
  | w :: ws => w ++ ' ' :: joinWords ws

/-- Python `" ".join(s.split())`: collapse internal whitespace runs to a
single space, dropping leading and trailing whitespace. -/
def pyCollapseWS (l : List Char) : List Char :=
  joinWords (pyWords l)

/-- Helper for Python `s.title()`: the flag records whether the previous
character was cased (for ASCII: a letter). A cased character after an
uncased position is uppercased, otherwise lowercased. -/
def pyTitleAux : Bool → List Char → List Char
  | _, [] => []
  | prev, c :: cs =>
    if c.isAlpha then
      (if prev then c.toLower else c.toUpper) :: pyTitleAux true cs
    else c :: pyTitleAux false cs

/-- Python `s.title()` (ASCII). -/
def pyTitle (l : List Char) : List Char := pyTitleAux false l

/-- Python `s.upper()` on a `String`. -/
def pyUpperS (s : String) : String := String.mk (pyUpper s.data)

/-- Python `s.lower()` on a `String`. -/
def pyLowerS (s : String) : String := String.mk (pyLower s.data)

/-- The `STATE_TO_CODE` dictionary of `dashboard.py`: the 50 state names and
the federal district, mapped to their 2-letter codes, in source order. -/
def STATE_TO_CODE : List (String × String) :=
  [("Alabama", "AL"), ("Alaska", "AK"), ("Arizona", "AZ"), ("Arkansas", "AR"),
   ("California", "CA"), ("Colorado", "CO"), ("Connecticut", "CT"),
   ("Delaware", "DE"), ("District of Columbia", "DC"), ("Florida", "FL"),
   ("Georgia", "GA"), ("Hawaii", "HI"), ("Idaho", "ID"), ("Illinois", "IL"),
   ("Indiana", "IN"), ("Iowa", "IA"), ("Kansas", "KS"), ("Kentucky", "KY"),
   ("Louisiana", "LA"), ("Maine", "ME"), ("Maryland", "MD"),
   ("Massachusetts", "MA"), ("Michigan", "MI"), ("Minnesota", "MN"),
   ("Mississippi", "MS"), ("Missouri", "MO"), ("Montana", "MT"),
   ("Nebraska", "NE"), ("Nevada", "NV"), ("New Hampshire", "NH"),
   ("New Jersey", "NJ"), ("New Mexico", "NM"), ("New York", "NY"),
   ("North Carolina", "NC"), ("North Dakota", "ND"), ("Ohio", "OH"),
   ("Oklahoma", "OK"), ("Oregon", "OR"), ("Pennsylvania", "PA"),
   ("Rhode Island", "RI"), ("South Carolina", "SC"), ("South Dakota", "SD"),
   ("Tennessee", "TN"), ("Texas", "TX"), ("Utah", "UT"), ("Vermont", "VT"),
   ("Virginia", "VA"), ("Washington", "WA"), ("West Virginia", "WV"),
   ("Wisconsin", "WI"), ("Wyoming", "WY")]

/-- The `upper_map` built inside `to_state_code`:
`{k.upper(): v for k, v in STATE_TO_CODE.items()}`. -/
def upper_map : List (String × String) :=
  STATE_TO_CODE.map (fun p => (pyUpperS p.1, p.2))

/-- Tiers 2 and 3 of `to_state_code`, applied to the already-stripped input:
normalize (underscores to spaces, strip, collapse whitespace), try the
title-cased form against `STATE_TO_CODE`, then the uppercased form against
`upper_map` (`upper_map.get` returns `None` on a miss). -/
def tier23 (x : List Char) : Option String :=
  match STATE_TO_CODE.lookup
      (String.mk (pyTitle (pyCollapseWS (pyStrip (underscoresToSpaces x))))) with
  | some code => some code
  | none =>
    upper_map.lookup (String.mk (pyUpper (pyCollapseWS (pyStrip (underscoresToSpaces x)))))

/-- The function `to_state_code` of `dashboard.py`.  `none` input models Python `None`
(returned unchanged); a `some` result is the canonical 2-letter code.
Tier 1: if the stripped value is exactly 2 alphabetic characters, return its
uppercase form.  Otherwise tiers 2 and 3 (`tier23`). -/
def to_state_code (s : Option String) : Option String :=
  match s with
  | none => none
  | some s0 =>
    let s1 := pyStrip s0.data
    if s1.length = 2 && s1.all Char.isAlpha then some (String.mk (pyUpper s1))
    else tier23 s1

/-- One character of a written variant of a canonical state name: at a letter
position any casing of that letter is allowed; at a space position either the
space or an underscore is allowed. -/
def variantChar (c d : Char) : Prop :=
  if d = ' ' then c = ' ' ∨ c = '_'
  else c.isAlpha = true ∧ c.toLower = d.toLower

/-- A written variant of a canonical state name: character for character, any
casing, with underscores allowed in place of spaces. -/
def NameVariant (w n : List Char) : Prop := List.Forall₂ variantChar w n

/-- Like `variantChar` after `replace("_", " ")`: underscores are gone, so a
space position must hold exactly a space. -/
def spacedVariantChar (c d : Char) : Prop :=
  if d = ' ' then c = ' '
  else c.isAlpha = true ∧ c.toLower = d.toLower

instance (c d : Char) : Decidable (variantChar c d) := by
  unfold variantChar
  infer_instance

instance (c d : Char) : Decidable (spacedVariantChar c d) := by
  unfold spacedVariantChar
  infer_instance

instance (w n : List Char) : Decidable (NameVariant w n) := by
  unfold NameVariant
  infer_instance

/-- Shape of the canonical names that the normalizer's tiers rely on: at
least 3 characters (so tier 1 cannot fire), only letters and single spaces,
and letters at both ends (so stripping is the identity). -/
def cleanName (n : List Char) : Bool :=
  decide (3 ≤ n.length) &&
  n.all (fun c => c.isAlpha || c = ' ') &&
  (match n.head? with | some c => c.isAlpha | none => false) &&
  (match n.getLast? with | some c => c.isAlpha | none => false)

/-! ## SQL expressions interpolated into the dashboard's query strings -/

/-- The fragment of SQL expression syntax used by the dashboard's metric
expressions: column references, numeric literals, division, subtraction and
`NULLIF`. -/
inductive SqlExpr : Type
  | col (name : String)
  | lit (q : ℚ)
  | div (a b : SqlExpr)
  | sub (a b : SqlExpr)
  | nullif (a b : SqlExpr)
  deriving DecidableEq, Repr

/-- Presto-style evaluation of a `SqlExpr` over a row environment mapping
column names to nullable rationals.  Division by a zero (non-null) divisor is
a query error; division or subtraction with a `NULL` operand is `NULL`;
`NULLIF(a, b)` is `NULL` when both operands are non-null and equal, and
otherwise returns `a`. -/
def evalSql (env : String → Option ℚ) : SqlExpr → Except String (Option ℚ)
  | .col name => .ok (env name)
  | .lit q => .ok (some q)
  | .div a b => do
    let x ← evalSql env a
    let y ← evalSql env b
    match x, y with
    | some u, some v =>
      if v = 0 then .error "division by zero" else .ok (some (u / v))
    | _, _ => .ok none
  | .sub a b => do
    let x ← evalSql env a
    let y ← evalSql env b
    match x, y with
    | some u, some v => .ok (some (u - v))
    | _, _ => .ok none
  | .nullif a b => do
    let x ← evalSql env a
    let y ← evalSql env b
    match x, y with
    | some u, some v => .ok (if u = v then none else some u)
    | _, _ => .ok x

/-- The `metric_options` dictionary of the Curated variant (`SOURCE` is the
`v_state_year_metrics` view): each label is a pre-materialized column. -/
def metric_options_curated : List (String × SqlExpr) :=
  [("Expenditure per student", .col "expenditure_per_student"),
   ("Revenue per student", .col "revenue_per_student"),
   ("Surplus / Deficit", .col "surplus_deficit"),
   ("Total Expenditure", .col "total_expenditure"),
   ("Total Revenue", .col "total_revenue")]

/-- The `metric_options` dictionary of the Raw fallback variant (`SOURCE` is
`states_all`): per-student metrics are computed inline with a
`NULLIF(enroll, 0)` guard on the divisor. -/
def metric_options_raw : List (String × SqlExpr) :=
  [("Expenditure per student",
     .div (.col "total_expenditure") (.nullif (.col "enroll") (.lit 0))),
   ("Revenue per student",
     .div (.col "total_revenue") (.nullif (.col "enroll") (.lit 0))),
   ("Surplus / Deficit", .sub (.col "total_revenue") (.col "total_expenditure")),
   ("Total Expenditure", .col "total_expenditure"),
   ("Total Revenue", .col "total_revenue")]

/-- The constant `PREFERRED_SOURCE` of `dashboard.py`: the curated view. -/
def PREFERRED_SOURCE : String := "v_state_year_metrics"

/-- The constant `FALLBACK_SOURCE` of `dashboard.py`: the raw table. -/
def FALLBACK_SOURCE : String := "states_all"

/-- The function `pick_source` of `dashboard.py`.  The catalog query returns the table
names of the schema; the source lowercases them
(`athena_df(q)["table_name"].str.lower()`) and tests
`PREFERRED_SOURCE.lower() in tables`. -/
def pick_source (table_names : List String) : String :=
  if (table_names.map pyLowerS).contains (pyLowerS PREFERRED_SOURCE) then
    PREFERRED_SOURCE
  else FALLBACK_SOURCE

/-- The mapping `nat_expr` of `dashboard.py`: the fixed per-label table mapping the
selected metric label to a pre-aggregated national expression over
`v_national_summary`, with the final `else` falling back to
`national_spend_per_student`. -/
def nat_expr (metric_label : String) : SqlExpr :=
  if metric_label = "Expenditure per student" then .col "national_spend_per_student"
  else if metric_label = "Revenue per student" then
    .div (.col "national_revenue") (.nullif (.col "national_enrollment") (.lit 0))
  else if metric_label = "Surplus / Deficit" then
    .sub (.col "national_revenue") (.col "national_expenditure")
  else if metric_label = "Total Expenditure" then .col "national_expenditure"
  else if metric_label = "Total Revenue" then .col "national_revenue"
  else .col "national_spend_per_student"

/-- A row of `v_national_summary` as consumed by the dedicated-summary
national query. -/
structure NatRow : Type where
  year : Int
  national_spend_per_student : Option ℚ
  national_enrollment : Option ℚ
  national_revenue : Option ℚ
  national_expenditure : Option ℚ
  deriving DecidableEq, Repr

/-- Row environment of a `v_national_summary` row. -/
def natEnv (r : NatRow) : String → Option ℚ := fun c =>
  if c = "national_spend_per_student" then r.national_spend_per_student
  else if c = "national_enrollment" then r.national_enrollment
  else if c = "national_revenue" then r.national_revenue
  else if c = "national_expenditure" then r.national_expenditure
  else none

/-- The DedicatedSummary national query
(`SELECT year, nat_expr AS metric FROM v_national_summary ORDER BY year`):
one output row per table row, sorted by year, the metric cell being the
evaluation of the selected label's national expression. -/
def dedicatedNational (metric_label : String) (table : List NatRow) :
    List (Int × Except String (Option ℚ)) :=
  List.insertionSort (fun p q => p.1 ≤ q.1)
    (table.map (fun r => (r.year, evalSql (natEnv r) (nat_expr metric_label))))

/-- A per-state source row as consumed by the ComputedAggregate national
query: its year and the (nullable) value of the per-state metric expression
on that row. -/
structure AggRow : Type where
  state : String
  year : Int
  metric : Option ℚ
  deriving DecidableEq, Repr

/-- SQL `AVG` over a column: skip `NULL` cells; `NULL` when no cell remains. -/
def sqlAvg (vs : List (Option ℚ)) : Option ℚ :=
  let xs := vs.filterMap id
  if xs.isEmpty then none else some (xs.sum / xs.length)

/-- The distinct years of the source rows, in ascending order
(`GROUP BY year ... ORDER BY year`). -/
def aggYears (rows : List AggRow) : List Int :=
  List.insertionSort (fun a b => a ≤ b) (rows.map (fun r => r.year)).dedup

/-- The ComputedAggregate national query
(`SELECT year, AVG(metric_expr) AS metric FROM SOURCE GROUP BY year ORDER BY
year`): one output row per distinct year, carrying the null-skipping average
of the per-state metric over the rows of that year. -/
def computedAggregate (rows : List AggRow) : List (Int × Option ℚ) :=
  (aggYears rows).map
    (fun y => (y, sqlAvg ((rows.filter (fun r => r.year = y)).map (fun r => r.metric))))

/-! ## Trend reconciliation and the per-year delta -/

/-- A row of `state_trend` / `national_trend` as returned by the trend
queries: nullable year and nullable metric (pandas represents both nulls as
NaN cells). -/
structure TRow : Type where
  year : Option Int
  metric : Option ℚ
  deriving DecidableEq, Repr

/-- The merged trend frame of `dashboard.py`:
`pd.concat([state_trend, national_trend])` after each frame received its
`series` label, followed by `dropna(subset=["year", "metric"])` and
`astype(int)` on the year.  Output rows are (year, metric, series label). -/
def trendMerged (stateLabel : String) (s n : List TRow) : List (Int × ℚ × String) :=
  ((s.map (fun r => (r, stateLabel))) ++ (n.map (fun r => (r, "National")))).filterMap
    (fun p =>
      match p.1.year, p.1.metric with
      | some y, some m => some (y, m, p.2)
      | _, _ => none)

/-- The rows of one labelled series surviving the
`dropna(subset=["year", "metric"])` policy. -/
def cleanSeries (label : String) (l : List TRow) : List (Int × ℚ × String) :=
  l.filterMap
    (fun r =>
      match r.year, r.metric with
      | some y, some m => some (y, m, label)
      | _, _ => none)

/-- The lookup `trend[trend["year"].astype(int) == year]["metric"].iloc[0]` on one
series, wrapped by the source's `try`: the outer `none` is the exception path
(`astype(int)` raises when any year cell is null; `.iloc[0]` raises when no
row matches), and the inner value is the metric cell of the first matching
row (`none` = NaN, which `float()` accepts). -/
def seriesYearVal (l : List TRow) (y : Int) : Option (Option ℚ) :=
  if l.any (fun r => r.year.isNone) then none
  else ((l.filter (fun r => r.year = some y)).head?).map (fun r => r.metric)

/-- The delta block of `dashboard.py` (lines 282 to 288): inside `try`, read
the state value then the national value for the selected year and subtract;
any exception is swallowed (`except: pass`), modelled by the outer `none`.
A NaN operand yields a NaN delta (inner `none`), still displayed. -/
def deltaCompute (s n : List TRow) (y : Int) : Option (Option ℚ) :=
  match seriesYearVal s y, seriesYearVal n y with
  | some a, some b => some (a.bind (fun x => b.map (fun z => x - z)))
  | _, _ => none

/-! ## Record dropping and the KPI block -/

/-- A row of the per-year dataframe `df`: the raw state identifier (null when
the warehouse cell is null) and the nullable metric value.  The remaining
columns (enroll, revenue, expenditure) do not participate in the dropping or
KPI logic. -/
structure SRow : Type where
  state : Option String
  metric : Option ℚ
  deriving DecidableEq, Repr

/-- The assignment `df["state_code"] = df["state"].apply(to_state_code)` followed by
`df = df.dropna(subset=["state_code"])`: each surviving row is paired with
its canonical code; rows whose identifier resolves to `None` are dropped. -/
def resolvedRecords (rows : List SRow) : List (SRow × String) :=
  rows.filterMap (fun r => (to_state_code r.state).map (fun c => (r, c)))

/-- The non-null metric values of the resolved rows, which the KPI block's
skipna statistics range over. -/
def kpiValues (rows : List SRow) : List ℚ :=
  (resolvedRecords rows).filterMap (fun p => p.1.metric)

/-- The statistic `df["metric"].mean()` of the KPI block (skipna; `none` when no non-null
value exists, in which case the dashboard shows a dash). -/
def kpiMean (rows : List SRow) : Option ℚ :=
  let xs := kpiValues rows
  if xs.isEmpty then none else some (xs.sum / xs.length)

/-- The statistic `df["metric"].max()` of the KPI block (skipna). -/
def kpiMax (rows : List SRow) : Option ℚ := (kpiValues rows).max?

/-- The statistic `df["metric"].min()` of the KPI block (skipna). -/
def kpiMin (rows : List SRow) : Option ℚ := (kpiValues rows).min?

/-! ## Concrete inputs used to settle individual claims -/

/-- A `v_national_summary` relation holding two rows for the same year. -/
def natTableDup : List NatRow :=
  [⟨2015, some 100, some 10, some 20, some 30⟩,
   ⟨2015, some 200, some 20, some 40, some 60⟩]

/-- A state trend series holding a single valid point for 2015. -/
def stateTrend2015 : List TRow := [⟨some 2015, some 10⟩]

/-- A national trend series with a valid 2015 point and one null-year row. -/
def natTrendNullYear : List TRow := [⟨some 2015, some 8⟩, ⟨none, some 7⟩]

/-- The spec's reconciliation example: state series over 2015 to 2017. -/
def stateTrend567 : List TRow :=
  [⟨some 2015, some 1⟩, ⟨some 2016, some 2⟩, ⟨some 2017, some 3⟩]

/-- The spec's reconciliation example: national series over 2015 and 2017. -/
def natTrend57 : List TRow := [⟨some 2015, some 4⟩, ⟨some 2017, some 5⟩]

/-- A concrete row environment whose enrollment divisor is zero. -/
def zeroEnrollEnv : String → Option ℚ := fun c => if c = "enroll" then some 0 else some 5

end Dashboard

namespace Dashboard

/-! ## Arithmetic characterizations of the ASCII character operations -/

theorem char_toNat_ofNat_valid {n : Nat} (h1 : n < 55296) : (Char.ofNat n).toNat = n := by
  unfold Char.ofNat
  rw [dif_pos (Or.inl h1)]
  simp [Char.ofNatAux, Char.toNat, UInt32.toNat]

theorem char_eq_of_toNat_eq {c d : Char} (h : c.toNat = d.toNat) : c = d := by
  apply Char.eq_of_val_eq
  apply UInt32.eq_of_toBitVec_eq
  exact BitVec.eq_of_toNat_eq h

theorem char_eq_iff_toNat {c d : Char} : c = d ↔ c.toNat = d.toNat :=
  ⟨fun h => congrArg Char.toNat h, char_eq_of_toNat_eq⟩

theorem uint32_le_iff {a b : UInt32} : a ≤ b ↔ a.toNat ≤ b.toNat := by
  rw [UInt32.le_def]
  exact BitVec.le_def

theorem char_toLower_toNat (c : Char) :
    (c.toLower).toNat = if 65 ≤ c.toNat ∧ c.toNat ≤ 90 then c.toNat + 32 else c.toNat := by
  unfold Char.toLower
  split
  · next h =>
    rw [if_pos (by omega)]
    rw [char_toNat_ofNat_valid]
    omega
  · next h => rw [if_neg (by omega)]

theorem char_toUpper_toNat (c : Char) :
    (c.toUpper).toNat = if 97 ≤ c.toNat ∧ c.toNat ≤ 122 then c.toNat - 32 else c.toNat := by
  unfold Char.toUpper
  split
  · next h =>
    rw [if_pos (by omega)]
    rw [char_toNat_ofNat_valid]
    omega
  · next h => rw [if_neg (by omega)]

theorem char_isUpper_iff {c : Char} : c.isUpper = true ↔ (65 ≤ c.toNat ∧ c.toNat ≤ 90) := by
  rcases c with ⟨v, hv⟩
  simp [Char.isUpper, Char.toNat, uint32_le_iff, UInt32.size]

theorem char_isLower_iff {c : Char} : c.isLower = true ↔ (97 ≤ c.toNat ∧ c.toNat ≤ 122) := by
  rcases c with ⟨v, hv⟩
  simp [Char.isLower, Char.toNat, uint32_le_iff, UInt32.size]

theorem char_isAlpha_iff {c : Char} :
    c.isAlpha = true ↔ ((65 ≤ c.toNat ∧ c.toNat ≤ 90) ∨ (97 ≤ c.toNat ∧ c.toNat ≤ 122)) := by
  rw [Char.isAlpha, Bool.or_eq_true, char_isUpper_iff, char_isLower_iff]

theorem pySpace_iff {c : Char} :
    pySpace c = true ↔
      (c.toNat = 32 ∨ c.toNat = 9 ∨ c.toNat = 10 ∨ c.toNat = 13 ∨ c.toNat = 11 ∨ c.toNat = 12) := by
  have e1 : (' ' : Char).toNat = 32 := rfl
  have e2 : ('\t' : Char).toNat = 9 := rfl
  have e3 : ('\n' : Char).toNat = 10 := rfl
  have e4 : ('\r' : Char).toNat = 13 := rfl
  have e5 : ('\x0b' : Char).toNat = 11 := rfl
  have e6 : ('\x0c' : Char).toNat = 12 := rfl
  simp only [pySpace, Bool.or_eq_true, decide_eq_true_eq]
  rw [@char_eq_iff_toNat c ' ', @char_eq_iff_toNat c '\t', @char_eq_iff_toNat c '\n',
    @char_eq_iff_toNat c '\r', @char_eq_iff_toNat c '\x0b', @char_eq_iff_toNat c '\x0c',
    e1, e2, e3, e4, e5, e6]
  tauto

theorem toUpper_eq_of_toLower_eq {c d : Char} (h : c.toLower = d.toLower) :
    c.toUpper = d.toUpper := by
  have h' := congrArg Char.toNat h
  rw [char_toLower_toNat, char_toLower_toNat] at h'
  apply char_eq_of_toNat_eq
  rw [char_toUpper_toNat, char_toUpper_toNat]
  split_ifs at h' ⊢ <;> omega

theorem isAlpha_of_toLower_eq {c d : Char} (hc : c.isAlpha = true) (h : c.toLower = d.toLower) :
    d.isAlpha = true := by
  have h' := congrArg Char.toNat h
  rw [char_toLower_toNat, char_toLower_toNat] at h'
  rw [char_isAlpha_iff] at hc ⊢
  split_ifs at h' <;> omega

theorem isAlpha_not_pySpace {c : Char} (hc : c.isAlpha = true) : pySpace c = false := by
  rw [char_isAlpha_iff] at hc
  cases hps : pySpace c
  · rfl
  · exfalso
    have := pySpace_iff.mp hps
    omega

theorem isAlpha_ne_space {c : Char} (hc : c.isAlpha = true) : c ≠ ' ' := by
  rw [char_isAlpha_iff] at hc
  intro e
  have h32 : c.toNat = 32 := char_eq_iff_toNat.mp e
  omega

theorem isAlpha_ne_underscore {c : Char} (hc : c.isAlpha = true) : c ≠ '_' := by
  rw [char_isAlpha_iff] at hc
  intro e
  have h95 : c.toNat = 95 := char_eq_iff_toNat.mp e
  omega

theorem isUpper_toUpper {c : Char} (hc : c.isAlpha = true) : (c.toUpper).isUpper = true := by
  rw [char_isAlpha_iff] at hc
  rw [char_isUpper_iff, char_toUpper_toNat]
  split_ifs <;> omega

theorem isAlpha_toUpper {c : Char} (hc : c.isAlpha = true) : (c.toUpper).isAlpha = true := by
  rw [char_isAlpha_iff] at hc
  rw [char_isAlpha_iff, char_toUpper_toNat]
  split_ifs <;> omega

end Dashboard

namespace Dashboard

/-! ## Transport of name variants through the normalization pipeline

A written variant of a canonical name (any casing, underscores for spaces)
is carried step by step through the normalizer's pipeline: after underscore
replacement it is a `spacedVariantChar` variant, and that relation is
preserved by stripping and whitespace collapsing, while title-casing and
uppercasing map related lists to equal outputs. -/

theorem spaced_pySpace_eq {c d : Char} (h : spacedVariantChar c d) : pySpace c = pySpace d := by
  unfold spacedVariantChar at h
  by_cases hd : d = ' '
  · rw [if_pos hd] at h
    rw [h, hd]
  · rw [if_neg hd] at h
    obtain ⟨hca, hlow⟩ := h
    have hda : d.isAlpha = true := isAlpha_of_toLower_eq hca hlow
    rw [isAlpha_not_pySpace hca, isAlpha_not_pySpace hda]

theorem forall₂_append_chars {R : Char → Char → Prop} {a b c d : List Char}
    (h1 : List.Forall₂ R a b) (h2 : List.Forall₂ R c d) :
    List.Forall₂ R (a ++ c) (b ++ d) := by
  induction h1 with
  | nil => simpa using h2
  | cons hh _ ih => exact List.Forall₂.cons hh ih

theorem forall₂_head? {R : Char → Char → Prop} {w n : List Char} (h : List.Forall₂ R w n)
    {d : Char} (hd : n.head? = some d) : ∃ c, w.head? = some c ∧ R c d := by
  cases h with
  | nil => simp at hd
  | cons hh ht =>
    simp only [List.head?_cons, Option.some.injEq] at hd
    subst hd
    exact ⟨_, rfl, hh⟩

theorem forall₂_getLast? {R : Char → Char → Prop} {w n : List Char} (h : List.Forall₂ R w n)
    {d : Char} (hd : n.getLast? = some d) : ∃ c, w.getLast? = some c ∧ R c d := by
  have hrev := List.rel_reverse h
  rw [← List.head?_reverse] at hd
  obtain ⟨c, hc, hr⟩ := forall₂_head? hrev hd
  rw [List.head?_reverse] at hc
  exact ⟨c, hc, hr⟩

theorem strip_eq_self {l : List Char}
    (h1 : ∀ c, l.head? = some c → pySpace c = false)
    (h2 : ∀ c, l.getLast? = some c → pySpace c = false) : pyStrip l = l := by
  unfold pyStrip
  have d1 : l.dropWhile pySpace = l := by
    cases l with
    | nil => rfl
    | cons a t => simp [List.dropWhile_cons, h1 a rfl]
  rw [d1]
  have d2 : l.reverse.dropWhile pySpace = l.reverse := by
    cases hrev : l.reverse with
    | nil => rfl
    | cons a t =>
      have ha : l.getLast? = some a := by
        rw [← List.head?_reverse, hrev]
        rfl
      simp [List.dropWhile_cons, h2 a ha]
  rw [d2, List.reverse_reverse]

theorem isEmpty_eq_of_length_eq {a1 a2 : List Char} (h : a1.length = a2.length) :
    a1.isEmpty = a2.isEmpty := by
  cases a1 <;> cases a2 <;> simp_all

theorem spaced_of_variant : ∀ {w n : List Char}, NameVariant w n →
    (∀ d ∈ n, (d.isAlpha || d = ' ') = true) →
    List.Forall₂ spacedVariantChar (underscoresToSpaces w) n := by
  intro w n h
  unfold NameVariant at h
  induction h with
  | nil =>
    intro _
    exact List.Forall₂.nil
  | @cons c d w1 n1 hh _ ih =>
    intro hn
    refine List.Forall₂.cons ?_ (ih (fun x hx => hn x (List.mem_cons_of_mem _ hx)))
    unfold variantChar at hh
    unfold spacedVariantChar
    by_cases hd : d = ' '
    · rw [if_pos hd] at hh
      rw [if_pos hd]
      show (if c = '_' then ' ' else c) = ' '
      rcases hh with h1 | h1
      · rw [if_neg]
        · exact h1
        · rw [h1]
          decide
      · rw [if_pos h1]
    · rw [if_neg hd] at hh
      obtain ⟨hca, hlw⟩ := hh
      rw [if_neg hd]
      show (if c = '_' then ' ' else c).isAlpha = true ∧
        (if c = '_' then ' ' else c).toLower = d.toLower
      rw [if_neg (isAlpha_ne_underscore hca)]
      exact ⟨hca, hlw⟩

theorem replace_id_of_clean : ∀ {n : List Char}, (∀ d ∈ n, (d.isAlpha || d = ' ') = true) →
    underscoresToSpaces n = n := by
  intro n
  induction n with
  | nil =>
    intro _
    rfl
  | cons d t ih =>
    intro hn
    have hd := hn d (List.mem_cons_self d t)
    rw [Bool.or_eq_true, decide_eq_true_eq] at hd
    have hne : d ≠ '_' := by
      rcases hd with h | h
      · exact isAlpha_ne_underscore h
      · rw [h]
        decide
    unfold underscoresToSpaces
    rw [List.map_cons, if_neg hne]
    have ht := ih (fun x hx => hn x (List.mem_cons_of_mem _ hx))
    unfold underscoresToSpaces at ht
    rw [ht]

theorem spaced_dropWhile {w n : List Char} (h : List.Forall₂ spacedVariantChar w n) :
    List.Forall₂ spacedVariantChar (w.dropWhile pySpace) (n.dropWhile pySpace) := by
  induction h with
  | nil => exact List.Forall₂.nil
  | @cons c d w1 n1 hh ht ih =>
    rw [List.dropWhile_cons, List.dropWhile_cons, spaced_pySpace_eq hh]
    cases hps : pySpace d
    · simp only [Bool.false_eq_true, if_false]
      exact List.Forall₂.cons hh ht
    · simp only [if_true]
      exact ih

theorem spaced_strip {w n : List Char} (h : List.Forall₂ spacedVariantChar w n) :
    List.Forall₂ spacedVariantChar (pyStrip w) (pyStrip n) :=
  List.rel_reverse (spaced_dropWhile (List.rel_reverse (spaced_dropWhile h)))

theorem spaced_wordsAux : ∀ {w n : List Char}, List.Forall₂ spacedVariantChar w n →
    ∀ {a1 a2 : List Char}, List.Forall₂ spacedVariantChar a1 a2 →
    List.Forall₂ (List.Forall₂ spacedVariantChar) (pyWordsAux w a1) (pyWordsAux n a2) := by
  intro w n h
  induction h with
  | nil =>
    intro a1 a2 ha
    have he : a2.isEmpty = a1.isEmpty := (isEmpty_eq_of_length_eq ha.length_eq).symm
    unfold pyWordsAux
    rw [he]
    cases h1 : a1.isEmpty
    · simp only [Bool.false_eq_true, if_false]
      exact List.Forall₂.cons (List.rel_reverse ha) List.Forall₂.nil
    · simp only [if_true]
      exact List.Forall₂.nil
  | @cons c d w1 n1 hh ht ih =>
    intro a1 a2 ha
    have he : a2.isEmpty = a1.isEmpty := (isEmpty_eq_of_length_eq ha.length_eq).symm
    unfold pyWordsAux
    rw [spaced_pySpace_eq hh]
    cases hps : pySpace d
    · simp only [Bool.false_eq_true, if_false]
      exact ih (List.Forall₂.cons hh ha)
    · simp only [if_true]
      rw [he]
      cases h1 : a1.isEmpty
      · simp only [Bool.false_eq_true, if_false]
        exact List.Forall₂.cons (List.rel_reverse ha) (ih List.Forall₂.nil)
      · simp only [if_true]
        exact ih List.Forall₂.nil

theorem spaced_joinWords : ∀ {ws1 ws2 : List (List Char)},
    List.Forall₂ (List.Forall₂ spacedVariantChar) ws1 ws2 →
    List.Forall₂ spacedVariantChar (joinWords ws1) (joinWords ws2) := by
  intro ws1 ws2 h
  induction h with
  | nil => exact List.Forall₂.nil
  | @cons w1 w2 t1 t2 hh ht ih =>
    cases ht with
    | nil => exact hh
    | cons hh2 ht2 =>
      have hsp : spacedVariantChar ' ' ' ' := by
        unfold spacedVariantChar
        rw [if_pos rfl]
      exact forall₂_append_chars hh (List.Forall₂.cons hsp ih)

theorem spaced_collapse {w n : List Char} (h : List.Forall₂ spacedVariantChar w n) :
    List.Forall₂ spacedVariantChar (pyCollapseWS w) (pyCollapseWS n) :=
  spaced_joinWords (spaced_wordsAux h List.Forall₂.nil)

theorem spaced_title : ∀ {w n : List Char}, List.Forall₂ spacedVariantChar w n →
    ∀ b, pyTitleAux b w = pyTitleAux b n := by
  intro w n h
  induction h with
  | nil =>
    intro b
    rfl
  | @cons c d w1 n1 hh ht ih =>
    intro b
    unfold spacedVariantChar at hh
    by_cases hd : d = ' '
    · rw [if_pos hd] at hh
      subst hd
      subst hh
      unfold pyTitleAux
      rw [if_neg (by decide), if_neg (by decide), ih false]
    · rw [if_neg hd] at hh
      obtain ⟨hca, hlw⟩ := hh
      have hda : d.isAlpha = true := isAlpha_of_toLower_eq hca hlw
      unfold pyTitleAux
      rw [if_pos hca, if_pos hda, ih true, toUpper_eq_of_toLower_eq hlw, hlw]

theorem spaced_upper {w n : List Char} (h : List.Forall₂ spacedVariantChar w n) :
    pyUpper w = pyUpper n := by
  induction h with
  | nil => rfl
  | @cons c d w1 n1 hh ht ih =>
    unfold spacedVariantChar at hh
    unfold pyUpper at ih ⊢
    rw [List.map_cons, List.map_cons, ih]
    by_cases hd : d = ' '
    · rw [if_pos hd] at hh
      rw [hh, hd]
    · rw [if_neg hd] at hh
      rw [toUpper_eq_of_toLower_eq hh.2]

end Dashboard

namespace Dashboard

/-! ## The normalizer on canonical names and its output shape -/

theorem tier23_variant {w n : List Char} (h : NameVariant w n)
    (hn : ∀ d ∈ n, (d.isAlpha || d = ' ') = true) : tier23 w = tier23 n := by
  have h2 : List.Forall₂ spacedVariantChar (underscoresToSpaces w) (underscoresToSpaces n) := by
    rw [replace_id_of_clean hn]
    exact spaced_of_variant h hn
  have h3 := spaced_collapse (spaced_strip h2)
  have ht : pyTitle (pyCollapseWS (pyStrip (underscoresToSpaces w))) =
      pyTitle (pyCollapseWS (pyStrip (underscoresToSpaces n))) := spaced_title h3 false
  have hu := spaced_upper h3
  unfold tier23
  rw [ht, hu]

theorem table_clean : ∀ p ∈ STATE_TO_CODE, cleanName p.1.data = true := by decide

theorem table_tier23 : ∀ p ∈ STATE_TO_CODE, tier23 p.1.data = some p.2 := by decide

theorem to_state_code_variant {n code : String} {w : List Char}
    (hm : (n, code) ∈ STATE_TO_CODE) (h : NameVariant w n.data) :
    to_state_code (some (String.mk w)) = some code := by
  have hclean := table_clean (n, code) hm
  unfold cleanName at hclean
  rw [Bool.and_eq_true, Bool.and_eq_true, Bool.and_eq_true] at hclean
  obtain ⟨⟨⟨hlen, hall⟩, hhead⟩, hlast⟩ := hclean
  rw [decide_eq_true_eq] at hlen
  have hall' : ∀ d ∈ n.data, (d.isAlpha || d = ' ') = true := List.all_eq_true.mp hall
  have hws : pyStrip w = w := by
    apply strip_eq_self
    · intro c hc
      cases hh : n.data.head? with
      | none =>
        rw [hh] at hhead
        exact absurd hhead (by decide)
      | some d =>
        rw [hh] at hhead
        obtain ⟨c2, hc2, hrel⟩ := forall₂_head? h hh
        have hceq : c2 = c := Option.some.inj (hc2.symm.trans hc)
        subst hceq
        unfold variantChar at hrel
        rw [if_neg (isAlpha_ne_space hhead)] at hrel
        exact isAlpha_not_pySpace hrel.1
    · intro c hc
      cases hh : n.data.getLast? with
      | none =>
        rw [hh] at hlast
        exact absurd hlast (by decide)
      | some d =>
        rw [hh] at hlast
        obtain ⟨c2, hc2, hrel⟩ := forall₂_getLast? h hh
        have hceq : c2 = c := Option.some.inj (hc2.symm.trans hc)
        subst hceq
        unfold variantChar at hrel
        rw [if_neg (isAlpha_ne_space hlast)] at hrel
        exact isAlpha_not_pySpace hrel.1
  have hlw : w.length = n.data.length := List.Forall₂.length_eq h
  have hlen3 : 3 ≤ n.data.length := hlen
  show (if (pyStrip w).length = 2 && (pyStrip w).all Char.isAlpha then
      some (String.mk (pyUpper (pyStrip w))) else tier23 (pyStrip w)) = some code
  rw [hws, decide_eq_false (by omega : ¬ w.length = 2), Bool.false_and]
  simp only [Bool.false_eq_true, if_false]
  rw [tier23_variant h hall']
  exact table_tier23 (n, code) hm

theorem lookup_mem_values : ∀ {l : List (String × String)} {k v : String},
    l.lookup k = some v → v ∈ l.map Prod.snd := by
  intro l
  induction l with
  | nil =>
    intro k v h
    simp [List.lookup] at h
  | cons p t ih =>
    intro k v h
    rw [List.lookup] at h
    cases hk : (k == p.1)
    · rw [hk] at h
      exact List.mem_cons_of_mem _ (ih h)
    · rw [hk] at h
      rw [List.map_cons]
      exact (Option.some.inj h) ▸ List.mem_cons_self _ _

theorem table_values_shape : ∀ v ∈ STATE_TO_CODE.map Prod.snd,
    v.data.length = 2 ∧ v.data.all (fun ch => ch.isUpper && ch.isAlpha) = true := by decide

theorem upper_values_shape : ∀ v ∈ upper_map.map Prod.snd,
    v.data.length = 2 ∧ v.data.all (fun ch => ch.isUpper && ch.isAlpha) = true := by decide

end Dashboard

namespace Dashboard

/-- C1: the State Identifier Normalizer `to_state_code` satisfies the spec's
three-tier reference definition.  (1) If the trimmed input is exactly 2
alphabetic characters, it returns its uppercase form verbatim.  (2) For every
entry of the 51-name canonical table and every written variant of that name
(any casing, underscores for spaces), it returns that name's 2-letter code.
(3) For any input matching no tier (tier 1 test false, title-case lookup and
uppercase lookup both missing), it returns `none` (Python `None`, "no
match"). -/
theorem C1_normalizer_three_tier :
    (∀ s : String, (pyStrip s.data).length = 2 →
      (pyStrip s.data).all Char.isAlpha = true →
      to_state_code (some s) = some (String.mk (pyUpper (pyStrip s.data)))) ∧
    (∀ n code : String, ∀ w : List Char, (n, code) ∈ STATE_TO_CODE →
      NameVariant w n.data → to_state_code (some (String.mk w)) = some code) ∧
    (∀ s : String,
      ¬((pyStrip s.data).length = 2 ∧ (pyStrip s.data).all Char.isAlpha = true) →
      STATE_TO_CODE.lookup (String.mk (pyTitle
        (pyCollapseWS (pyStrip (underscoresToSpaces (pyStrip s.data)))))) = none →
      upper_map.lookup (String.mk (pyUpper
        (pyCollapseWS (pyStrip (underscoresToSpaces (pyStrip s.data)))))) = none →
      to_state_code (some s) = none) := by
  refine ⟨?_, ?_, ?_⟩
  · intro s hl ha
    have hc : (decide ((pyStrip s.data).length = 2) && (pyStrip s.data).all Char.isAlpha)
        = true := by simp [hl, ha]
    show (if (pyStrip s.data).length = 2 && (pyStrip s.data).all Char.isAlpha then
        some (String.mk (pyUpper (pyStrip s.data))) else tier23 (pyStrip s.data)) =
        some (String.mk (pyUpper (pyStrip s.data)))
    rw [if_pos hc]
  · intro n code w hm hv
    exact to_state_code_variant hm hv
  · intro s hnot h1 h2
    have hc : (decide ((pyStrip s.data).length = 2) && (pyStrip s.data).all Char.isAlpha)
        = false := by
      rw [Bool.and_eq_false_iff]
      by_cases hl : (pyStrip s.data).length = 2
      · right
        cases ha : (pyStrip s.data).all Char.isAlpha
        · rfl
        · exact absurd ⟨hl, ha⟩ hnot
      · left
        simp [hl]
    show (if (pyStrip s.data).length = 2 && (pyStrip s.data).all Char.isAlpha then
        some (String.mk (pyUpper (pyStrip s.data))) else tier23 (pyStrip s.data)) = none
    rw [hc]
    simp only [Bool.false_eq_true, if_false]
    unfold tier23
    rw [h1]
    exact h2

/-- Witness for C1: each tier applied at a concrete input.  `" ny "` strips
to a 2-letter code, the variant `"nEw_yOrK"` of `"New York"` resolves to
`"NY"`, and `"Narnia"` matches no tier. -/
theorem C1_normalizer_three_tier_witness :
    to_state_code (some " ny ") = some "NY" ∧
    to_state_code (some "nEw_yOrK") = some "NY" ∧
    to_state_code (some "Narnia") = none := by
  refine ⟨?_, ?_, ?_⟩
  · exact (C1_normalizer_three_tier.1 " ny " (by decide) (by decide)).trans (by decide)
  · exact C1_normalizer_three_tier.2.1 "New York" "NY" "nEw_yOrK".data (by decide) (by decide)
  · exact C1_normalizer_three_tier.2.2 "Narnia" (by decide) (by decide) (by decide)

/-- C10: `to_state_code` maps `None` to `None`, and every `some` output is a
string of exactly two uppercase alphabetic characters, so every state code
reaching the downstream stages is a 2-letter uppercase string. -/
theorem C10_code_shape :
    to_state_code none = none ∧
    ∀ s c, to_state_code (some s) = some c →
      c.data.length = 2 ∧ c.data.all (fun ch => ch.isUpper && ch.isAlpha) = true := by
  refine ⟨rfl, ?_⟩
  intro s c h
  have h' : (if (pyStrip s.data).length = 2 && (pyStrip s.data).all Char.isAlpha then
      some (String.mk (pyUpper (pyStrip s.data))) else tier23 (pyStrip s.data)) = some c := h
  by_cases hcond : (decide ((pyStrip s.data).length = 2) &&
      (pyStrip s.data).all Char.isAlpha) = true
  · rw [if_pos hcond] at h'
    rw [Bool.and_eq_true, decide_eq_true_eq] at hcond
    obtain ⟨hl, ha⟩ := hcond
    have hc : c = String.mk (pyUpper (pyStrip s.data)) := (Option.some.inj h').symm
    subst hc
    constructor
    · show (pyUpper (pyStrip s.data)).length = 2
      unfold pyUpper
      rw [List.length_map]
      exact hl
    · show (pyUpper (pyStrip s.data)).all (fun ch => ch.isUpper && ch.isAlpha) = true
      rw [List.all_eq_true]
      intro ch hch
      unfold pyUpper at hch
      obtain ⟨o, ho, rfl⟩ := List.mem_map.mp hch
      have hoa : o.isAlpha = true := List.all_eq_true.mp ha o ho
      rw [Bool.and_eq_true]
      exact ⟨isUpper_toUpper hoa, isAlpha_toUpper hoa⟩
  · rw [if_neg hcond] at h'
    unfold tier23 at h'
    rcases h1 : STATE_TO_CODE.lookup (String.mk (pyTitle
        (pyCollapseWS (pyStrip (underscoresToSpaces (pyStrip s.data)))))) with _ | code
    · rw [h1] at h'
      exact upper_values_shape c (lookup_mem_values h')
    · rw [h1] at h'
      have hc : code = c := Option.some.inj h'
      subst hc
      exact table_values_shape code (lookup_mem_values h1)

/-- Witness for C10: the `None` clause and the shape of a concrete output. -/
theorem C10_code_shape_witness :
    to_state_code none = none ∧
    ("NY".data.length = 2 ∧ "NY".data.all (fun ch => ch.isUpper && ch.isAlpha) = true) :=
  ⟨C10_code_shape.1, C10_code_shape.2 "ny" "NY" (by decide)⟩

end Dashboard

namespace Dashboard

/-! ## Source resolver, national expression table, and the division guard -/

/-- C9: the Source Resolver selects the Curated variant
(`v_state_year_metrics`) exactly when that relation occurs in the catalog's
table listing, compared case-insensitively, and otherwise selects the Raw
variant (`states_all`). -/
theorem C9_pick_source :
    ∀ table_names : List String,
      (pick_source table_names = PREFERRED_SOURCE ↔
        ∃ t ∈ table_names, pyLowerS t = pyLowerS PREFERRED_SOURCE) ∧
      ((¬ ∃ t ∈ table_names, pyLowerS t = pyLowerS PREFERRED_SOURCE) →
        pick_source table_names = FALLBACK_SOURCE) := by
  intro ts
  have hmem : ((ts.map pyLowerS).contains (pyLowerS PREFERRED_SOURCE) = true) ↔
      ∃ t ∈ ts, pyLowerS t = pyLowerS PREFERRED_SOURCE := by
    simp [List.contains, List.elem_iff, List.mem_map]
  constructor
  · constructor
    · intro hp
      unfold pick_source at hp
      by_cases hc : (ts.map pyLowerS).contains (pyLowerS PREFERRED_SOURCE) = true
      · exact hmem.mp hc
      · rw [if_neg hc] at hp
        exact absurd hp (by decide)
    · intro hex
      unfold pick_source
      rw [if_pos (hmem.mpr hex)]
  · intro hno
    unfold pick_source
    rw [if_neg]
    intro hc
    exact hno (hmem.mp hc)

/-- Witness for C9: a differently-cased catalog entry selects Curated, and a
catalog without the view selects Raw. -/
theorem C9_pick_source_witness :
    pick_source ["V_State_Year_Metrics"] = PREFERRED_SOURCE ∧
    pick_source ["states_all"] = FALLBACK_SOURCE :=
  ⟨(C9_pick_source ["V_State_Year_Metrics"]).1.mpr
      ⟨"V_State_Year_Metrics", by decide, by decide⟩,
    (C9_pick_source ["states_all"]).2 (by decide)⟩

/-- C6: with the dedicated national summary present, each of the 5 metric
labels maps to its fixed pre-aggregated national expression, and any label
outside the table falls back to `national_spend_per_student`, the expression
representing spend per student. -/
theorem C6_nat_expr_table :
    nat_expr "Expenditure per student" = SqlExpr.col "national_spend_per_student" ∧
    nat_expr "Revenue per student" = SqlExpr.div (SqlExpr.col "national_revenue")
      (SqlExpr.nullif (SqlExpr.col "national_enrollment") (SqlExpr.lit 0)) ∧
    nat_expr "Surplus / Deficit" =
      SqlExpr.sub (SqlExpr.col "national_revenue") (SqlExpr.col "national_expenditure") ∧
    nat_expr "Total Expenditure" = SqlExpr.col "national_expenditure" ∧
    nat_expr "Total Revenue" = SqlExpr.col "national_revenue" ∧
    ∀ label : String, label ∉ ["Expenditure per student", "Revenue per student",
      "Surplus / Deficit", "Total Expenditure", "Total Revenue"] →
      nat_expr label = SqlExpr.col "national_spend_per_student" := by
  refine ⟨by decide, by decide, by decide, by decide, by decide, ?_⟩
  intro label h
  simp only [List.mem_cons, List.not_mem_nil, or_false] at h
  push_neg at h
  obtain ⟨h1, h2, h3, h4, h5⟩ := h
  unfold nat_expr
  rw [if_neg h1, if_neg h2, if_neg h3, if_neg h4, if_neg h5]

/-- Witness for C6: an unmapped label falls back to the spend-per-student
column. -/
theorem C6_nat_expr_table_witness :
    nat_expr "Median teacher salary" = SqlExpr.col "national_spend_per_student" :=
  C6_nat_expr_table.2.2.2.2.2 "Median teacher salary" (by decide)

/-- C5: under the Raw schema variant, both per-student metric expressions
guard their division: on any row whose enrollment is zero they evaluate to
SQL `NULL` — not to a query error and not to zero. -/
theorem C5_raw_div_guard :
    ∀ env : String → Option ℚ, env "enroll" = some 0 →
      (∃ e, metric_options_raw.lookup "Expenditure per student" = some e ∧
        evalSql env e = Except.ok none) ∧
      (∃ e, metric_options_raw.lookup "Revenue per student" = some e ∧
        evalSql env e = Except.ok none) := by
  intro env h
  constructor
  · refine ⟨SqlExpr.div (SqlExpr.col "total_expenditure")
      (SqlExpr.nullif (SqlExpr.col "enroll") (SqlExpr.lit 0)), by decide, ?_⟩
    cases henv : env "total_expenditure" <;>
      simp [evalSql, h, henv, Except.bind, bind]
  · refine ⟨SqlExpr.div (SqlExpr.col "total_revenue")
      (SqlExpr.nullif (SqlExpr.col "enroll") (SqlExpr.lit 0)), by decide, ?_⟩
    cases henv : env "total_revenue" <;>
      simp [evalSql, h, henv, Except.bind, bind]

/-- Witness for C5: the guard at a concrete environment with zero
enrollment. -/
theorem C5_raw_div_guard_witness :
    (∃ e, metric_options_raw.lookup "Expenditure per student" = some e ∧
      evalSql zeroEnrollEnv e = Except.ok none) ∧
    (∃ e, metric_options_raw.lookup "Revenue per student" = some e ∧
      evalSql zeroEnrollEnv e = Except.ok none) :=
  C5_raw_div_guard zeroEnrollEnv (by decide)

end Dashboard

namespace Dashboard

/-! ## National baseline aggregation -/

theorem computedAggregate_map_fst (rows : List AggRow) :
    (computedAggregate rows).map Prod.fst = aggYears rows := by
  unfold computedAggregate
  rw [List.map_map]
  exact List.map_id _

theorem computedAggregate_years_nodup (rows : List AggRow) :
    ((computedAggregate rows).map Prod.fst).Nodup := by
  rw [computedAggregate_map_fst]
  unfold aggYears
  exact ((List.perm_insertionSort _ _).symm).nodup (List.nodup_dedup _)

theorem aggYears_mem (rows : List AggRow) (y : Int) :
    y ∈ aggYears rows ↔ y ∈ rows.map (fun r => r.year) := by
  unfold aggYears
  rw [(List.perm_insertionSort _ _).mem_iff, List.mem_dedup]

/-- C2: with ComputedAggregate provenance, the national series has exactly
one point per distinct year of the source rows (its year set is exactly the
source's year set, with no duplicates), the point of a year carries the SQL
average of the per-state metric over the rows of that year, and that average
is the arithmetic mean of the non-null reported values. -/
theorem C2_computed_aggregate :
    ∀ rows : List AggRow,
      ((computedAggregate rows).map Prod.fst).Nodup ∧
      (∀ y : Int, y ∈ rows.map (fun r => r.year) ↔
        y ∈ (computedAggregate rows).map Prod.fst) ∧
      (∀ y : Int, y ∈ rows.map (fun r => r.year) →
        (y, sqlAvg ((rows.filter (fun r => r.year = y)).map (fun r => r.metric)))
          ∈ computedAggregate rows) ∧
      (∀ vs : List (Option ℚ), vs.filterMap id ≠ [] →
        sqlAvg vs = some ((vs.filterMap id).sum / (vs.filterMap id).length)) := by
  intro rows
  refine ⟨computedAggregate_years_nodup rows, ?_, ?_, ?_⟩
  · intro y
    rw [computedAggregate_map_fst]
    exact (aggYears_mem rows y).symm
  · intro y hy
    have hmem : y ∈ aggYears rows := (aggYears_mem rows y).mpr hy
    exact List.mem_map_of_mem _ hmem
  · intro vs hne
    simp only [sqlAvg]
    have hi : (vs.filterMap id).isEmpty = false := by
      cases hvs : vs.filterMap id with
      | nil => exact absurd hvs hne
      | cons a t => rfl
    rw [hi]
    simp only [Bool.false_eq_true, if_false]

/-- Witness for C2: two states reporting year 2015 with metrics 1 and 3
yield the national point (2015, 2). -/
theorem C2_computed_aggregate_witness :
    ((2015 : Int), some (2 : ℚ)) ∈
      computedAggregate [⟨"CA", 2015, some 1⟩, ⟨"TX", 2015, some 3⟩] := by
  have h := (C2_computed_aggregate [⟨"CA", 2015, some 1⟩, ⟨"TX", 2015, some 3⟩]).2.2.1
    2015 (by decide)
  have he : sqlAvg ((([⟨"CA", 2015, some 1⟩, ⟨"TX", 2015, some 3⟩] : List AggRow).filter
      (fun r => r.year = 2015)).map (fun r => r.metric)) = some 2 := by
    simp [sqlAvg]
    norm_num
  rw [he] at h
  exact h

/-- A counterexample for C7 as stated: with DedicatedSummary provenance the
national query does not deduplicate years, so a summary relation holding two
rows for 2015 produces a national series with a duplicate year. -/
theorem C7_counterexample :
    ¬ (((dedicatedNational "Total Revenue" natTableDup).map Prod.fst).Nodup) := by decide

/-- C7 (amended): with ComputedAggregate provenance the national series never
has duplicate years; with DedicatedSummary provenance it has one point per
row of the summary relation, hence no duplicate years exactly when the
relation itself has none. -/
theorem C7_no_duplicate_years :
    (∀ rows : List AggRow, ((computedAggregate rows).map Prod.fst).Nodup) ∧
    (∀ (label : String) (table : List NatRow), (table.map (fun r => r.year)).Nodup →
      ((dedicatedNational label table).map Prod.fst).Nodup) := by
  constructor
  · exact computedAggregate_years_nodup
  · intro label table h
    unfold dedicatedNational
    have hp := (List.perm_insertionSort (fun p q : Int × Except String (Option ℚ) => p.1 ≤ q.1)
      (table.map (fun r => (r.year, evalSql (natEnv r) (nat_expr label))))).map Prod.fst
    have hfst : ((table.map (fun r => (r.year, evalSql (natEnv r) (nat_expr label)))).map
        Prod.fst) = table.map (fun r => r.year) := by
      rw [List.map_map]
      rfl
    rw [hfst] at hp
    exact hp.symm.nodup h

/-- Witness for C7: a duplicate-free summary relation and a computed
aggregate both yield duplicate-free year columns. -/
theorem C7_no_duplicate_years_witness :
    ((dedicatedNational "Total Revenue"
      [⟨2015, some 1, some 1, some 1, some 1⟩, ⟨2016, some 2, some 2, some 2, some 2⟩]).map
        Prod.fst).Nodup ∧
    ((computedAggregate [⟨"CA", 2015, some 1⟩]).map Prod.fst).Nodup :=
  ⟨C7_no_duplicate_years.2 "Total Revenue" _ (by decide), C7_no_duplicate_years.1 _⟩

end Dashboard

namespace Dashboard

/-! ## Trend reconciliation, delta, and the drop policy -/

theorem seriesYearVal_isSome_iff {l : List TRow} {y : Int}
    (hl : ∀ r ∈ l, r.year.isSome = true) :
    (seriesYearVal l y).isSome = true ↔ ∃ r ∈ l, r.year = some y := by
  unfold seriesYearVal
  have hany : l.any (fun r => r.year.isNone) = false := by
    rw [List.any_eq_false]
    intro r hr
    have := hl r hr
    cases hyr : r.year with
    | none => rw [hyr] at this; exact absurd this (by decide)
    | some v => simp [hyr]
  rw [hany]
  simp only [Bool.false_eq_true, if_false]
  rw [Option.isSome_map']
  rw [List.head?_isSome]
  constructor
  · intro h
    cases hf : l.filter (fun r => r.year = some y) with
    | nil => exact absurd hf h
    | cons a t =>
      have ha : a ∈ l.filter (fun r => r.year = some y) := by
        rw [hf]
        exact List.mem_cons_self a t
      rw [List.mem_filter] at ha
      exact ⟨a, ha.1, of_decide_eq_true ha.2⟩
  · intro ⟨r, hr, hy⟩ hf
    rw [List.filter_eq_nil_iff] at hf
    exact hf r hr (by simp [hy])

theorem seriesYearVal_eq_none_of_not_mem {l : List TRow} {y : Int}
    (h : ∀ r ∈ l, r.year ≠ some y) : seriesYearVal l y = none := by
  unfold seriesYearVal
  cases hany : l.any (fun r => r.year.isNone) with
  | false =>
    simp only [Bool.false_eq_true, if_false]
    have hf : l.filter (fun r => r.year = some y) = [] := by
      rw [List.filter_eq_nil_iff]
      intro a ha
      simp only [decide_eq_true_eq]
      exact h a ha
    rw [hf]
    rfl
  | true => simp only [if_true]

theorem deltaCompute_eq_none_right {s n : List TRow} {y : Int}
    (h : ∀ r ∈ n, r.year ≠ some y) : deltaCompute s n y = none := by
  unfold deltaCompute
  rw [seriesYearVal_eq_none_of_not_mem h]
  cases seriesYearVal s y <;> rfl

/-- A counterexample for C3 as stated: both series hold a (non-null) value
for the selected year 2015, yet the delta is omitted, because the national
frame also holds a row with a null year and the `astype(int)` conversion of
the year column inside the `try` block raises before the lookup. -/
theorem C3_counterexample :
    (∃ r ∈ stateTrend2015, r.year = some 2015 ∧ r.metric.isSome = true) ∧
    (∃ r ∈ natTrendNullYear, r.year = some 2015 ∧ r.metric.isSome = true) ∧
    deltaCompute stateTrend2015 natTrendNullYear 2015 = none := by decide

/-- C3 (amended): provided neither trend frame holds a row with a null year,
the delta is computed exactly when both series hold a point for the selected
year; its value is state minus national when both points carry values; and
when either series lacks the selected year the delta is omitted as `none`
(the swallowed exception), never an error. -/
theorem C3_delta_policy :
    (∀ (s n : List TRow) (y : Int),
      (∀ r ∈ s, r.year.isSome = true) → (∀ r ∈ n, r.year.isSome = true) →
      ((deltaCompute s n y).isSome = true ↔
        ((∃ r ∈ s, r.year = some y) ∧ (∃ r ∈ n, r.year = some y)))) ∧
    (∀ (s n : List TRow) (y : Int) (a b : ℚ),
      seriesYearVal s y = some (some a) → seriesYearVal n y = some (some b) →
      deltaCompute s n y = some (some (a - b))) ∧
    (∀ (s n : List TRow) (y : Int), (∀ r ∈ s, r.year ≠ some y) →
      deltaCompute s n y = none) ∧
    (∀ (s n : List TRow) (y : Int), (∀ r ∈ n, r.year ≠ some y) →
      deltaCompute s n y = none) := by
  refine ⟨?_, ?_, ?_, ?_⟩
  · intro s n y hs hn
    rw [← seriesYearVal_isSome_iff (y := y) hs, ← seriesYearVal_isSome_iff (y := y) hn]
    unfold deltaCompute
    cases seriesYearVal s y <;> cases seriesYearVal n y <;> simp
  · intro s n y a b h1 h2
    unfold deltaCompute
    rw [h1, h2]
    rfl
  · intro s n y h
    unfold deltaCompute
    rw [seriesYearVal_eq_none_of_not_mem h]
  · intro s n y h
    exact deltaCompute_eq_none_right h

/-- Witness for C3: a concrete delta, state 10 minus national 8 in 2015. -/
theorem C3_delta_policy_witness :
    deltaCompute [⟨some 2015, some 10⟩] [⟨some 2015, some 8⟩] 2015 = some (some 2) :=
  (C3_delta_policy.2.1 [⟨some 2015, some 10⟩] [⟨some 2015, some 8⟩] 2015 10 8
    (by decide) (by decide)).trans (by norm_num)

/-- C8: rows missing either the year or the metric value are dropped before
merging (concatenating the labelled frames and then dropping equals dropping
within each frame and then concatenating), and a valid year present in the
state series but absent from the national series is retained in the merged
output under the state's label while the delta for that year is omitted. -/
theorem C8_trend_reconciler :
    (∀ (lab : String) (s n : List TRow),
      trendMerged lab s n = cleanSeries lab s ++ cleanSeries "National" n) ∧
    (∀ (lab : String) (s n : List TRow) (y : Int) (m : ℚ),
      (⟨some y, some m⟩ : TRow) ∈ s → (∀ r ∈ n, r.year ≠ some y) →
      ((y, m, lab) ∈ trendMerged lab s n ∧ deltaCompute s n y = none)) := by
  constructor
  · intro lab s n
    unfold trendMerged cleanSeries
    rw [List.filterMap_append, List.filterMap_map, List.filterMap_map]
    rfl
  · intro lab s n y m hm hn
    constructor
    · unfold trendMerged
      rw [List.mem_filterMap]
      refine ⟨(⟨some y, some m⟩, lab), ?_, rfl⟩
      rw [List.mem_append]
      left
      exact List.mem_map_of_mem _ hm
    · exact deltaCompute_eq_none_right hn

/-- Witness for C8: the spec's example — state years 2015 to 2017 against
national years 2015 and 2017 keep 2016 in the state line but omit its
delta. -/
theorem C8_trend_reconciler_witness :
    ((2016 : Int), (2 : ℚ), "New York") ∈ trendMerged "New York" stateTrend567 natTrend57 ∧
    deltaCompute stateTrend567 natTrend57 2016 = none :=
  C8_trend_reconciler.2 "New York" stateTrend567 natTrend57 2016 2 (by decide) (by decide)

theorem resolved_mem_code {rows : List SRow} {r : SRow} {c : String}
    (h : (r, c) ∈ resolvedRecords rows) : to_state_code r.state = some c := by
  unfold resolvedRecords at h
  rw [List.mem_filterMap] at h
  obtain ⟨a, _, hf⟩ := h
  cases hts : to_state_code a.state with
  | none =>
    rw [hts] at hf
    exact absurd hf (by simp)
  | some c2 =>
    rw [hts] at hf
    have hpair := Option.some.inj hf
    obtain ⟨h1, h2⟩ := Prod.mk.injEq .. ▸ hpair
    subst h1
    subst h2
    exact hts

theorem resolved_drop {l1 l2 : List SRow} {r : SRow} (hr : to_state_code r.state = none) :
    resolvedRecords (l1 ++ r :: l2) = resolvedRecords (l1 ++ l2) := by
  unfold resolvedRecords
  rw [List.filterMap_append, List.filterMap_append, List.filterMap_cons_none]
  rw [hr]
  rfl

/-- C4: a record whose state identifier is unresolvable is dropped before the
map and statistics stages and is never given a default code — every surviving
record's code is exactly the normalizer's output on its own raw identifier —
and the KPI mean/max/min are computed over the resolved records only, so
dropping an unresolvable record leaves all three unchanged. -/
theorem C4_unresolvable_drop :
    (∀ (rows : List SRow) (r : SRow) (c : String),
      (r, c) ∈ resolvedRecords rows → to_state_code r.state = some c) ∧
    (∀ (rows : List SRow) (r : SRow), to_state_code r.state = none →
      ∀ c, (r, c) ∉ resolvedRecords rows) ∧
    (∀ (l1 l2 : List SRow) (r : SRow), to_state_code r.state = none →
      kpiMean (l1 ++ r :: l2) = kpiMean (l1 ++ l2) ∧
      kpiMax (l1 ++ r :: l2) = kpiMax (l1 ++ l2) ∧
      kpiMin (l1 ++ r :: l2) = kpiMin (l1 ++ l2)) := by
  refine ⟨?_, ?_, ?_⟩
  · intro rows r c h
    exact resolved_mem_code h
  · intro rows r hr c hmem
    rw [resolved_mem_code hmem] at hr
    exact absurd hr (by simp)
  · intro l1 l2 r hr
    have hv : kpiValues (l1 ++ r :: l2) = kpiValues (l1 ++ l2) := by
      unfold kpiValues
      rw [resolved_drop hr]
    refine ⟨?_, ?_, ?_⟩
    · unfold kpiMean
      rw [hv]
    · unfold kpiMax
      rw [hv]
    · unfold kpiMin
      rw [hv]

/-- Witness for C4: dropping the unresolvable record `"Atlantis"` leaves the
KPI statistics of the resolved records unchanged. -/
theorem C4_unresolvable_drop_witness :
    kpiMean [⟨some "Texas", some 4⟩, ⟨some "Atlantis", some 7⟩] =
      kpiMean [⟨some "Texas", some 4⟩] ∧
    kpiMax [⟨some "Texas", some 4⟩, ⟨some "Atlantis", some 7⟩] =
      kpiMax [⟨some "Texas", some 4⟩] ∧
    kpiMin [⟨some "Texas", some 4⟩, ⟨some "Atlantis", some 7⟩] =
      kpiMin [⟨some "Texas", some 4⟩] :=
  C4_unresolvable_drop.2.2 [⟨some "Texas", some 4⟩] [] ⟨some "Atlantis", some 7⟩ (by decide)

end Dashboard
